import Mathlib

/-!
Verification development for the Dravet-syndrome NIH funding dashboard
(`Dashboard_with_tabs.py`).  The analytical pipeline of the dashboard is
embedded shallowly: pandas column coercion and row filtering, the fiscal
year / state filter, groupby-sum aggregation, the top-N views, the
forecast call, the collaboration-graph construction and the spring
layout.  Library calls whose algorithms are not part of the repository
(the pandas sorting kind, statsmodels ExponentialSmoothing, networkx
spring_layout) are modelled from the specification and are marked as
such in their doc comments.
-/

/-- A cell of one of the numerically coerced DataFrame columns.  A raw
CSV cell is either numeric or free text; `pd.to_numeric(errors='coerce')`
turns text into the missing marker (NaN). -/
inductive RawCell where
  | num (v : ℚ)
  | text (s : String)
  | missing
deriving DecidableEq

/-- `pd.to_numeric(col, errors='coerce')` acting on one cell
(`Dashboard_with_tabs.py` lines 19-21): numeric values survive,
anything non-numeric becomes the missing marker. -/
def toNumeric : RawCell → RawCell
  | .num v => .num v
  | .text _ => .missing
  | .missing => .missing

/-- The numeric value carried by a cell, if any. -/
def numVal : RawCell → Option ℚ
  | .num v => some v
  | .text _ => none
  | .missing => none

/-- One row of the loaded DataFrame, restricted to the columns the
analytical pipeline reads.  The four numeric columns are `RawCell`s both
before and after the startup coercion, which models the in-place column
overwrite of lines 19-21 (the date columns of lines 14-16 are coerced
the same way and are read by no downstream view, so they are omitted). -/
structure Row where
  applicationId : RawCell
  fiscalYear : RawCell
  totalCost : RawCell
  totalCostIC : RawCell
  organizationState : String
  administeringIC : String
  activity : String
  typeCode : String
  contactPIPersonId : String
  contactPIName : String
  otherPIs : String
deriving DecidableEq

/-- The startup coercion of one row: the four numeric columns are
replaced by their `to_numeric` images (lines 19-21). -/
def coerceRow (r : Row) : Row :=
  { r with
    applicationId := toNumeric r.applicationId
    fiscalYear := toNumeric r.fiscalYear
    totalCost := toNumeric r.totalCost
    totalCostIC := toNumeric r.totalCostIC }

/-- The startup coercion of the whole loaded table: `dravet_data` after
the two coercion loops have overwritten its columns in place. -/
def coerceTable (rows : List Row) : List Row := rows.map coerceRow

/-- The pandas elementwise comparison `cell != q` used by the row filter
(line 24).  A missing cell (NaN) compares as not-equal, so `NaN != 0`
is `True` and such a row is kept. -/
def cellNe (c : RawCell) (q : ℚ) : Bool :=
  match c with
  | .num v => decide (v ≠ q)
  | .text _ => true
  | .missing => true

/-- The row-drop predicate of lines 23-25: keep a row iff its coerced
fiscal year is not 0 and its `Type` column is not the sentinel
`'139104'`. -/
def rowKept (r : Row) : Bool :=
  cellNe r.fiscalYear 0 && decide (r.typeCode ≠ "139104")

/-- `filtered_data` (lines 23-25): the coerced table with the dropped
rows removed. -/
def filteredData (rows : List Row) : List Row :=
  (coerceTable rows).filter rowKept

/-- The pandas `Series.isin(selected_years)` test on a fiscal-year cell
(line 76): a missing cell is a member of no selection. -/
def isinYear (c : RawCell) (years : List ℚ) : Bool :=
  match c with
  | .num v => years.contains v
  | .text _ => false
  | .missing => false

/-- The Filter Engine (lines 76-77): the rows of the working table whose
fiscal year is in the selected-years list and whose organization state
is in the selected-states list. -/
def filterEngine (years : List ℚ) (states : List String) (rows : List Row) : List Row :=
  rows.filter (fun r => isinYear r.fiscalYear years && states.contains r.organizationState)

/-- Code-point comparison of character lists, the lexicographic order
pandas sorts string group keys by. -/
def strLeAux : List Char → List Char → Bool
  | [], _ => true
  | _ :: _, [] => false
  | a :: as, b :: bs =>
    if a.toNat < b.toNat then true
    else if b.toNat < a.toNat then false
    else strLeAux as bs

/-- Lexicographic ≤ on strings by code point. -/
def strLe (a b : String) : Bool := strLeAux a.data b.data

/-- Strict lexicographic < on strings. -/
def strLt (a b : String) : Bool := strLe a b && !(strLe b a)

/-- Group keys of a pandas `groupby` with its default `sort=True`: the
distinct key values in ascending order of the dimension's comparator. -/
def keysOf {κ : Type} [DecidableEq κ] (le : κ → κ → Bool) (key : Row → κ)
    (rows : List Row) : List κ :=
  List.insertionSort (fun a b => le a b = true) (rows.map key).dedup

/-- The summed value of one group under `groupby(key)[col].sum()`:
missing values are skipped, and a group with no non-missing value sums
to 0 (pandas `sum` with its default `min_count=0`). -/
def groupSum {κ : Type} [DecidableEq κ] (key : Row → κ) (value : Row → RawCell)
    (rows : List Row) (k : κ) : ℚ :=
  ((rows.filter (fun r => key r = k)).filterMap (fun r => numVal (value r))).sum

/-- The non-missing-value count of one group, as produced by the
`'count'` aggregator of line 207. -/
def groupCount {κ : Type} [DecidableEq κ] (key : Row → κ) (value : Row → RawCell)
    (rows : List Row) (k : κ) : ℕ :=
  ((rows.filter (fun r => key r = k)).filterMap (fun r => numVal (value r))).length

/-- `groupby(key)[col].sum()` as an association list in ascending key
order. -/
def groupbySum {κ : Type} [DecidableEq κ] (le : κ → κ → Bool) (key : Row → κ)
    (value : Row → RawCell) (rows : List Row) : List (κ × ℚ) :=
  (keysOf le key rows).map (fun k => (k, groupSum key value rows k))

/-- Descending comparison by a rational-valued sort key. -/
def descBy {α : Type} (f : α → ℚ) : α → α → Prop := fun a b => f b ≤ f a

instance {α : Type} (f : α → ℚ) : DecidableRel (descBy f) :=
  fun a b => inferInstanceAs (Decidable (f b ≤ f a))

instance {α : Type} (f : α → ℚ) : IsTotal α (descBy f) :=
  ⟨fun a b => le_total (f b) (f a)⟩

instance {α : Type} (f : α → ℚ) : IsTrans α (descBy f) :=
  ⟨fun _ _ _ h h' => le_trans h' h⟩

/-- Modelled from the spec: `sort_values(ascending=False)` (lines 127,
166, 208).  The sorting algorithm itself is pandas library code and is
not in the repository; the spec prescribes a stable descending sort by
value, which insertion sort realises. -/
def sort_values {α : Type} (f : α → ℚ) (l : List α) : List α :=
  List.insertionSort (descBy f) l

/-- Scaling of a keyed series to millions of dollars (`/ 1e6`). -/
def toMillions {α : Type} (l : List (α × ℚ)) : List (α × ℚ) :=
  l.map (fun e => (e.1, e.2 / 1000000))

/-- The untruncated Administering-IC series of line 127:
`groupby('Administering IC')['Total Cost'].sum()`. -/
def icSeries (rows : List Row) : List (String × ℚ) :=
  groupbySum strLe (fun r => r.administeringIC) (fun r => r.totalCost) rows

/-- `funding_by_ic` (lines 127-129): the IC series sorted descending by
value, truncated to the 10 largest entries, scaled to millions.  No
Other bucket is built here. -/
def funding_by_ic (rows : List Row) : List (String × ℚ) :=
  toMillions ((sort_values Prod.snd (icSeries rows)).take 10)

/-- The untruncated activity series:
`groupby('Activity')['Total Cost'].sum()` (line 166 before sorting). -/
def activitySeries (rows : List Row) : List (String × ℚ) :=
  groupbySum strLe (fun r => r.activity) (fun r => r.totalCost) rows

/-- `activity_funding` (line 166): the activity series sorted descending
by value. -/
def activity_funding (rows : List Row) : List (String × ℚ) :=
  sort_values Prod.snd (activitySeries rows)

/-- pandas `series[k] = v` on a keyed series (line 169): overwrite the
entry at key `k` if one exists, otherwise append `(k, v)` at the end. -/
def setKey (l : List (String × ℚ)) (k : String) (v : ℚ) : List (String × ℚ) :=
  if l.any (fun e => e.1 = k) then l.map (fun e => if e.1 = k then (k, v) else e)
  else l ++ [(k, v)]

/-- `top_5_activities` (lines 166-171): the five largest activities, an
`'Other Types'` entry set to the sum of the remaining tail, everything
scaled to millions. -/
def top_5_activities (rows : List Row) : List (String × ℚ) :=
  toMillions (setKey ((activity_funding rows).take 5) "Other Types"
    (((activity_funding rows).drop 5).map Prod.snd).sum)

/-- The state series of line 150:
`groupby('Organization State')['Total Cost'].sum()`, scaled. -/
def funding_by_state (rows : List Row) : List (String × ℚ) :=
  toMillions (groupbySum strLe (fun r => r.organizationState) (fun r => r.totalCost) rows)

/-- The composite group key of the PI table (line 206). -/
def piKey (r : Row) : String × String × String :=
  (r.contactPIPersonId, r.contactPIName, r.organizationState)

/-- Lexicographic comparison of the composite PI key, the multi-index
order of the PI `groupby`. -/
def piLe (a b : String × String × String) : Bool :=
  if strLt a.1 b.1 then true
  else if strLt b.1 a.1 then false
  else if strLt a.2.1 b.2.1 then true
  else if strLt b.2.1 a.2.1 then false
  else strLe a.2.2 b.2.2

/-- `pi_funding` (lines 206-207): `groupby([...])['Total Cost'].agg(['sum',
'count'])` — per composite key the skip-missing sum and the
non-missing-value count. -/
def pi_funding (rows : List Row) : List ((String × String × String) × ℚ × ℕ) :=
  (keysOf piLe piKey rows).map (fun k =>
    (k, groupSum piKey (fun r => r.totalCost) rows k,
        groupCount piKey (fun r => r.totalCost) rows k))

/-- `top_10_pis` (lines 208-210): the PI table sorted descending by the
`'sum'` column, truncated to 10 rows, funding scaled to millions. -/
def top_10_pis (rows : List Row) : List ((String × String × String) × ℚ × ℕ) :=
  ((sort_values (fun e => e.2.1) (pi_funding rows)).take 10).map
    (fun e => (e.1, e.2.1 / 1000000, e.2.2))

/-- The distinct non-missing fiscal years of the working table in
ascending order: the index of `groupby('Fiscal Year')`, whose default
`dropna=True` discards missing keys. -/
def fiscalYearsOf (rows : List Row) : List ℚ :=
  List.insertionSort (· ≤ ·) (rows.filterMap (fun r => numVal r.fiscalYear)).dedup

/-- `funding_trends` (lines 80-81): total cost summed per fiscal year
(missing costs skipped), scaled to millions. -/
def funding_trends (rows : List Row) : List (ℚ × ℚ) :=
  (fiscalYearsOf rows).map (fun y =>
    (y, ((rows.filter (fun r => r.fiscalYear = RawCell.num y)).filterMap
          (fun r => numVal r.totalCost)).sum / 1000000))

/-- `Series.max()` on a non-empty series (line 90); 0 on an empty one. -/
def seriesMax : List ℚ → ℚ
  | [] => 0
  | x :: xs => xs.foldl max x

/-- The seasonal period length fixed by line 84 (`seasonal_periods=4`). -/
def seasonalPeriods : ℕ := 4

/-- One Holt-Winters update step on the state (level, trend, seasonal
queue); the head of the queue is the seasonal component of the current
period.  Smoothing weights are fixed at 1/2. -/
def hwStep (st : ℚ × ℚ × List ℚ) (x : ℚ) : ℚ × ℚ × List ℚ :=
  let l := st.1
  let b := st.2.1
  let seas := st.2.2
  let s := seas.headD 0
  let lNew := (x - s) / 2 + (l + b) / 2
  let bNew := (lNew - l) / 2 + b / 2
  let sNew := (x - lNew) / 2 + s / 2
  (lNew, bNew, seas.tail ++ [sNew])

/-- Modelled from the spec: the fitted seasonal-additive exponential
smoother of `statsmodels.tsa.holtwinters.ExponentialSmoothing(trend='add',
seasonal='add', seasonal_periods=4)` (line 84) is library code that is
not in the repository.  Following the spec's model description: level,
additive trend and additive seasonal components with period 4,
initialised from the first two seasonal cycles, stepped over the rest of
the series; the one-step forecast is level + trend + next seasonal.  The
library fits its smoothing weights numerically; here they are fixed at
1/2, which the claims do not depend on. -/
def holtWintersForecast (xs : List ℚ) : ℚ :=
  let first := xs.take seasonalPeriods
  let second := (xs.drop seasonalPeriods).take seasonalPeriods
  let l0 := first.sum / (seasonalPeriods : ℚ)
  let b0 := (second.sum / (seasonalPeriods : ℚ) - l0) / (seasonalPeriods : ℚ)
  let s0 := first.map (fun x => x - l0)
  let st := (xs.drop seasonalPeriods).foldl hwStep (l0, b0, s0)
  st.1 + st.2.1 + st.2.2.headD 0

/-- The degenerate-history condition of the Forecast Engine. -/
inductive ForecastError where
  | insufficientHistory
deriving DecidableEq

/-- A forecasted point: period index and point estimate. -/
structure ForecastPoint where
  period : ℚ
  estimate : ℚ
deriving DecidableEq

/-- Modelled from the spec where it exceeds the caller code of lines
84-95: the model fit is library code, and the spec's degenerate-input
policy demands an `InsufficientHistory` signal on fewer than two full
seasonal cycles (8 observations) instead of an estimate.  On enough
history the engine returns the single point the caller plots: the
modelled smoother's estimate at period `series.max() + 1` (line 90). -/
def forecastEngine (trends : List (ℚ × ℚ)) : Except ForecastError ForecastPoint :=
  if trends.length < 2 * seasonalPeriods then .error .insufficientHistory
  else .ok ⟨seriesMax (trends.map Prod.fst) + 1, holtWintersForecast (trends.map Prod.snd)⟩

/-- Python's `s.split('; ')` (line 234), specialised to the literal
two-character separator, on the character list of the field: greedy
left-to-right scan for the exact separator, no whitespace handling. -/
def splitSemiSpace : List Char → List (List Char)
  | [] => [[]]
  | ';' :: ' ' :: rest => [] :: splitSemiSpace rest
  | c :: rest =>
    match splitSemiSpace rest with
    | [] => [[c]]
    | t :: ts => (c :: t) :: ts

/-- `row['Other PI or Project Leader(s)'].split('; ')` as a list of
string tokens. -/
def pySplit (s : String) : List String :=
  (splitSemiSpace s.data).map List.asString

/-- Modelled from the spec: the whitespace trimming the spec's phrase
"non-empty after trimming" refers to; the source itself never trims. -/
def trimWS (s : String) : String :=
  ((s.data.dropWhile Char.isWhitespace).reverse.dropWhile Char.isWhitespace).reverse.asString

/-- The candidate edges contributed by one record (lines 232-237): one
`(contact PI name, token)` pair per token of the split co-PI field that
is a non-empty string — the `if other_pi:` test, with no trimming. -/
def recordEdges (r : Row) : List (String × String) :=
  ((pySplit r.otherPIs).filter (fun t => t ≠ "")).map (fun t => (r.contactPIName, t))

/-- `DiGraph.add_edge` on the edge list: a repeated edge is not added
again, a new edge is appended. -/
def addEdge (es : List (String × String)) (e : String × String) : List (String × String) :=
  if e ∈ es then es else es ++ [e]

/-- The edge set of the collaboration graph built by the loop of lines
231-237, in insertion order with duplicates collapsed. -/
def graphEdges (rows : List Row) : List (String × String) :=
  rows.foldl (fun es r => (recordEdges r).foldl addEdge es) []

/-- `DiGraph.add_edge` node bookkeeping: an endpoint not yet present is
appended to the node list. -/
def addNode (ns : List String) (n : String) : List String :=
  if n ∈ ns then ns else ns ++ [n]

/-- The node list of the collaboration graph: both endpoints of each
added edge, in first-appearance order. -/
def graphNodes (rows : List Row) : List String :=
  (graphEdges rows).foldl (fun ns e => addNode (addNode ns e.1) e.2) []

/-- The collaboration graph `G` of lines 228-237. -/
structure LGraph where
  nodes : List String
  edges : List (String × String)
deriving DecidableEq

/-- The collaboration graph built from a filtered record set. -/
def collabGraph (rows : List Row) : LGraph :=
  ⟨graphNodes rows, graphEdges rows⟩

/-- A linear congruential pseudo-random step, the seeded generator of
the modelled layout. -/
def lcg (s : ℕ) : ℕ := (1103515245 * s + 12345) % 2147483648

/-- A pseudo-random rational in [0, 1) drawn from a generator state. -/
def randQ (s : ℕ) : ℚ := ((s % 1000 : ℕ) : ℚ) / 1000

/-- Seeded initial placement: successive generator states give each node
its two coordinates. -/
def initPosAux (s : ℕ) : List String → List (String × ℚ × ℚ)
  | [] => []
  | n :: ns => (n, randQ s, randQ (lcg s)) :: initPosAux (lcg (lcg s)) ns

/-- The coordinates of a node in a position list ((0,0) if absent). -/
def posOf (ps : List (String × ℚ × ℚ)) (n : String) : ℚ × ℚ :=
  match ps.find? (fun e => e.1 = n) with
  | some e => e.2
  | none => (0, 0)

/-- Displacement bounded by the temperature, componentwise. -/
def clampQ (t d : ℚ) : ℚ := max (-t) (min t d)

/-- Repulsive force between two positions, inversely related to the
squared distance (regularised away from zero). -/
def repulse (p q : ℚ × ℚ) : ℚ × ℚ :=
  let dx := p.1 - q.1
  let dy := p.2 - q.2
  let d2 := dx * dx + dy * dy + 1 / 100
  (dx / d2, dy / d2)

/-- Attractive force along an edge, proportional to the displacement. -/
def attract (p q : ℚ × ℚ) : ℚ × ℚ := ((q.1 - p.1) / 4, (q.2 - p.2) / 4)

/-- Vector sum of two force contributions. -/
def addV (a b : ℚ × ℚ) : ℚ × ℚ := (a.1 + b.1, a.2 + b.2)

/-- One refinement step of the spring simulation: per node, sum the
repulsion from every other node and the attraction along every incident
edge, then move by the temperature-clamped displacement. -/
def springStep (g : LGraph) (t : ℚ) (ps : List (String × ℚ × ℚ)) :
    List (String × ℚ × ℚ) :=
  ps.map (fun e =>
    let p := e.2
    let rep := ps.foldl
      (fun acc f => if f.1 = e.1 then acc else addV acc (repulse p f.2)) (0, 0)
    let force := g.edges.foldl
      (fun acc ed =>
        if ed.1 = e.1 then addV acc (attract p (posOf ps ed.2))
        else if ed.2 = e.1 then addV acc (attract p (posOf ps ed.1))
        else acc) rep
    (e.1, p.1 + clampQ t force.1, p.2 + clampQ t force.2))

/-- The fixed-budget iteration with decaying temperature. -/
def springIter (g : LGraph) : ℕ → ℚ → List (String × ℚ × ℚ) → List (String × ℚ × ℚ)
  | 0, _, ps => ps
  | k + 1, t, ps => springIter g k (t * 9 / 10) (springStep g t ps)

/-- Modelled from the spec: `nx.spring_layout(G, seed=42)` (line 240) is
networkx library code that is not in the repository.  Following the
spec's algorithm description: seeded pseudo-random initial placement,
then a fixed number of refinement steps of pairwise repulsion, edge
attraction and temperature-clamped displacement with decaying
temperature. -/
def spring_layout (g : LGraph) (seed : ℕ) (iters : ℕ) : List (String × ℚ × ℚ) :=
  springIter g iters (1 / 10) (initPosAux (lcg seed) g.nodes)

/-- The default iteration budget of the layout call. -/
def springIterations : ℕ := 50

/-- `pos` (line 240): the layout of the collaboration graph at the fixed
seed 42 and the default iteration budget. -/
def pos (rows : List Row) : List (String × ℚ × ℚ) :=
  spring_layout (collabGraph rows) 42 springIterations

/-- The bundle of derived structures a `render_content` call hands to
the presentation layer. -/
structure Views where
  trends : List (ℚ × ℚ)
  forecast : Except ForecastError ForecastPoint
  byIC : List (String × ℚ)
  byState : List (String × ℚ)
  byActivity : List (String × ℚ)
  topPIs : List ((String × String × String) × ℚ × ℕ)
  graph : LGraph
  layout : List (String × ℚ × ℚ)

/-- The callback `render_content` (lines 74-312) in state-passing form:
it reads the process-wide table (already coerced at startup), filters
it, derives every view, and returns the table component unchanged — the
function body assigns to no global. -/
def render_content (table : List Row) (years : List ℚ) (states : List String) :
    Views × List Row :=
  let f := filterEngine years states (table.filter rowKept)
  (⟨funding_trends f, forecastEngine (funding_trends f), funding_by_ic f,
    funding_by_state f, top_5_activities f, top_10_pis f, collabGraph f, pos f⟩,
   table)

/-- A representative fully valid record; concrete inputs below vary the
fields a given claim is about. -/
def baseRow : Row where
  applicationId := .num 1
  fiscalYear := .num 2020
  totalCost := .num 1000000
  totalCostIC := .missing
  organizationState := "CA"
  administeringIC := "NINDS"
  activity := "R01"
  typeCode := "1"
  contactPIPersonId := "p1"
  contactPIName := "Alice"
  otherPIs := ""

/-- Eleven records with pairwise distinct Administering ICs, each with
total cost one million dollars. -/
def c1rows : List Row :=
  ["I01", "I02", "I03", "I04", "I05", "I06", "I07", "I08", "I09", "I10", "I11"].map
    (fun ic => { baseRow with administeringIC := ic })

/-- Two records over two ICs and two activities, for the witnesses of
the amended top-N claims. -/
def c1wrows : List Row :=
  [{ baseRow with administeringIC := "NINDS", activity := "R01" },
   { baseRow with administeringIC := "NICHD", activity := "U01",
                  totalCost := .num 3000000 }]

/-- One record with a single activity group. -/
def c3rows : List Row := [baseRow]

/-- A raw row whose fiscal-year cell fails numeric coercion. -/
def c4row : Row := { baseRow with fiscalYear := RawCell.text "FY-unknown" }

/-- A record whose co-PI field is a single whitespace character. -/
def c5row : Row := { baseRow with otherPIs := " " }

/-- A record with the co-PI field of the spec's scenario. -/
def c5scenarioRow : Row := { baseRow with otherPIs := "Bob; ; Carol" }

/-- An eight-period ascending fiscal-year series. -/
def c2trends : List (ℚ × ℚ) :=
  [(2014, 1), (2015, 2), (2016, 3), (2017, 4), (2018, 5), (2019, 6), (2020, 7), (2021, 8)]

/-- A two-period series, shorter than two seasonal cycles. -/
def c2short : List (ℚ × ℚ) := [(2020, 1), (2021, 2)]

/-- A raw row whose total-cost cell is non-numeric text. -/
def c9row : Row := { baseRow with totalCost := RawCell.text "12,345" }

/-- A record whose total-cost cell is already the missing marker. -/
def c10row : Row := { baseRow with totalCost := RawCell.missing }

/-- A companion record in the same IC group, also with missing cost. -/
def c10row2 : Row := { baseRow with totalCost := RawCell.missing, contactPIPersonId := "p2" }

theorem isinYear_iff (c : RawCell) (years : List ℚ) :
    isinYear c years = true ↔ ∃ y ∈ years, c = RawCell.num y := by
  cases c <;> simp [isinYear]

/-- C6: for every selection of allowed fiscal years and allowed states
(empty selections included), the Filter Engine returns exactly the rows
whose fiscal year is in the year selection and whose state is in the
state selection, as an order-preserving sublist of its input; being a
pure function it leaves the input untouched. -/
theorem filterEngine_subset_mem (years : List ℚ) (states : List String)
    (rows : List Row) :
    (filterEngine years states rows).Sublist rows ∧
      ∀ r : Row, r ∈ filterEngine years states rows ↔
        r ∈ rows ∧ (∃ y ∈ years, r.fiscalYear = RawCell.num y) ∧
          r.organizationState ∈ states := by
  refine ⟨List.filter_sublist rows, fun r => ?_⟩
  simp [filterEngine, List.mem_filter, isinYear_iff]

/-- C7: the Layout Engine is deterministic — two invocations on the
same graph, the same seed and the same iteration budget produce the
same coordinates for every node. -/
theorem spring_layout_deterministic (g g' : LGraph) (s s' n n' : ℕ)
    (hg : g = g') (hs : s = s') (hn : n = n') :
    spring_layout g s n = spring_layout g' s' n' := by
  subst hg
  subst hs
  subst hn
  rfl

theorem spring_layout_deterministic_witness :
    spring_layout (collabGraph [c5scenarioRow]) 42 springIterations =
      spring_layout (collabGraph [c5scenarioRow]) 42 springIterations :=
  spring_layout_deterministic (collabGraph [c5scenarioRow]) (collabGraph [c5scenarioRow])
    42 42 springIterations springIterations rfl rfl rfl

theorem cellNe_iff (c : RawCell) (q : ℚ) : cellNe c q = true ↔ c ≠ RawCell.num q := by
  cases c <;> simp [cellNe]

theorem rowKept_iff (r : Row) :
    rowKept r = true ↔ r.fiscalYear ≠ RawCell.num 0 ∧ r.typeCode ≠ "139104" := by
  simp [rowKept, cellNe_iff]

/-- C4 counterexample: a raw row whose fiscal-year cell fails numeric
coercion is NOT excluded — after coercion its fiscal year is the
missing marker, which the `!= 0` filter keeps, so the retained
collection contains a row without a positive fiscal year. -/
theorem c4_missing_year_retained :
    (filteredData [c4row]).map Row.fiscalYear = [RawCell.missing] := by decide

/-- C4 amended: a row of the raw table survives into `filtered_data`
iff its coerced image has fiscal year different from 0 (missing
markers and negative years included) and a `Type` column different
from the sentinel `'139104'`; no other field constraint rejects a
row.  Rows whose fiscal year failed coercion are retained, not
excluded. -/
theorem filteredData_mem (raws : List Row) (r : Row) :
    r ∈ filteredData raws ↔
      ∃ w ∈ raws, r = coerceRow w ∧ r.fiscalYear ≠ RawCell.num 0 ∧
        r.typeCode ≠ "139104" := by
  simp only [filteredData, coerceTable, List.mem_filter, List.mem_map, rowKept_iff]
  constructor
  · rintro ⟨⟨w, hw, rfl⟩, h1, h2⟩
    exact ⟨w, hw, rfl, h1, h2⟩
  · rintro ⟨w, hw, rfl, h1, h2⟩
    exact ⟨⟨w, hw, rfl⟩, h1, h2⟩

theorem mem_addEdge {es : List (String × String)} {a e : String × String} :
    e ∈ addEdge es a ↔ e ∈ es ∨ e = a := by
  by_cases h : a ∈ es
  · simp only [addEdge, if_pos h]
    constructor
    · exact Or.inl
    · rintro (h' | rfl)
      · exact h'
      · exact h
  · simp [addEdge, if_neg h]

theorem nodup_addEdge {es : List (String × String)} (a : String × String)
    (h : es.Nodup) : (addEdge es a).Nodup := by
  by_cases hm : a ∈ es
  · simpa [addEdge, hm] using h
  · simp only [addEdge, if_neg hm]
    exact h.append (List.nodup_singleton a)
      (fun x hx hxa => hm ((List.mem_singleton.mp hxa) ▸ hx))

theorem mem_foldl_addEdge (l es : List (String × String)) (e : String × String) :
    e ∈ l.foldl addEdge es ↔ e ∈ es ∨ e ∈ l := by
  induction l generalizing es with
  | nil => simp
  | cons a l ih =>
    simp only [List.foldl_cons, ih, mem_addEdge, List.mem_cons]
    tauto

theorem nodup_foldl_addEdge (l : List (String × String))
    (es : List (String × String)) (h : es.Nodup) : (l.foldl addEdge es).Nodup := by
  induction l generalizing es with
  | nil => exact h
  | cons a l ih => exact ih (addEdge es a) (nodup_addEdge a h)

theorem mem_graphEdges (rows : List Row) (e : String × String) :
    e ∈ graphEdges rows ↔ ∃ r ∈ rows, e ∈ recordEdges r := by
  have key : ∀ es, e ∈ rows.foldl (fun es r => (recordEdges r).foldl addEdge es) es ↔
      e ∈ es ∨ ∃ r ∈ rows, e ∈ recordEdges r := by
    induction rows with
    | nil => simp
    | cons a l ih =>
      intro es
      simp only [List.foldl_cons, ih, mem_foldl_addEdge, List.mem_cons]
      constructor
      · rintro ((h | h) | ⟨r, hr, h⟩)
        · exact Or.inl h
        · exact Or.inr ⟨a, Or.inl rfl, h⟩
        · exact Or.inr ⟨r, Or.inr hr, h⟩
      · rintro (h | ⟨r, rfl | hr, h⟩)
        · exact Or.inl (Or.inl h)
        · exact Or.inl (Or.inr h)
        · exact Or.inr ⟨r, hr, h⟩
  simpa [graphEdges] using key []

theorem nodup_graphEdges (rows : List Row) : (graphEdges rows).Nodup := by
  have key : ∀ es : List (String × String), es.Nodup →
      (rows.foldl (fun es r => (recordEdges r).foldl addEdge es) es).Nodup := by
    induction rows with
    | nil => exact fun es h => h
    | cons a l ih => exact fun es h => ih _ (nodup_foldl_addEdge _ es h)
  exact key [] List.nodup_nil

theorem mem_recordEdges (r : Row) (e : String × String) :
    e ∈ recordEdges r ↔
      e.1 = r.contactPIName ∧ e.2 ∈ pySplit r.otherPIs ∧ e.2 ≠ "" := by
  simp only [recordEdges, List.mem_map, List.mem_filter]
  constructor
  · rintro ⟨t, ⟨ht, hne⟩, rfl⟩
    exact ⟨rfl, ht, by simpa using hne⟩
  · rintro ⟨h1, h2, h3⟩
    exact ⟨e.2, ⟨h2, by simpa using h3⟩, by rw [← h1]⟩

/-- C5 counterexample: the loop splits on the literal `'; '` and never
trims, so the co-PI field `" "` (one space, empty after trimming)
yields an edge from Alice to the whitespace-only name `" "`, where the
claim says no edge may be added for a token that is empty after
trimming. -/
theorem c5_whitespace_edge :
    graphEdges [c5row] = [("Alice", " ")] ∧ trimWS " " = "" := by decide

/-- C5 amended: the builder adds one directed edge from the record's
contact-PI display name to each token of the co-PI field split on the
literal separator `'; '` that is a non-empty string — the tokens are
not trimmed, so whitespace-only tokens produce edges and surrounding
whitespace is kept in the target name; repeated edges collapse to one.
The spec's scenario is unaffected: `"Bob; ; Carol"` splits into
`Bob`, `` (discarded) and `Carol`, giving exactly the two edges
Alice→Bob and Alice→Carol. -/
theorem graphEdges_characterization (rows : List Row) (e : String × String) :
    (e ∈ graphEdges rows ↔
      ∃ r ∈ rows, e.1 = r.contactPIName ∧ e.2 ∈ pySplit r.otherPIs ∧ e.2 ≠ "") ∧
      (graphEdges rows).Nodup ∧
      graphEdges [c5scenarioRow] = [("Alice", "Bob"), ("Alice", "Carol")] := by
  refine ⟨?_, nodup_graphEdges rows, by decide⟩
  rw [mem_graphEdges]
  constructor
  · rintro ⟨r, hr, h⟩
    exact ⟨r, hr, (mem_recordEdges r e).mp h⟩
  · rintro ⟨r, hr, h⟩
    exact ⟨r, hr, (mem_recordEdges r e).mpr h⟩

theorem filter_sort_values {α : Type} (f : α → ℚ) (v : ℚ) (l : List α) :
    (sort_values f l).filter (fun a => f a = v) = l.filter (fun a => f a = v) := by
  have hpair : (l.filter (fun a => f a = v)).Pairwise (descBy f) := by
    apply List.pairwise_of_forall_mem_list
    intro a ha b hb
    have ha' : f a = v := by simpa using (List.mem_filter.mp ha).2
    have hb' : f b = v := by simpa using (List.mem_filter.mp hb).2
    simp [descBy, ha', hb']
  have hsub : List.Sublist (l.filter (fun a => f a = v)) (sort_values f l) :=
    List.sublist_insertionSort hpair (List.filter_sublist l)
  have hsub2 : List.Sublist (l.filter (fun a => f a = v))
      ((sort_values f l).filter (fun a => f a = v)) := by
    have h := hsub.filter (fun a => decide (f a = v))
    simpa [List.filter_filter] using h
  have hperm : List.Perm ((sort_values f l).filter (fun a => f a = v))
      (l.filter (fun a => f a = v)) :=
    (List.perm_insertionSort (descBy f) l).filter _
  exact (hsub2.eq_of_length hperm.length_eq.symm).symm

/-- C8: in each of the three value-sorted views (Administering-IC
funding, activity funding, PI funding), the descending sort by value is
stable — for every value `v` the entries carrying `v` appear in the
sorted output in exactly the relative order of the group iteration
order that feeds the sort — and the output is sorted descending; both
facts per pure functions, hence reproducible across runs. -/
theorem sorted_views_stable (rows : List Row) (v : ℚ) :
    ((sort_values Prod.snd (icSeries rows)).filter (fun e => e.2 = v) =
        (icSeries rows).filter (fun e => e.2 = v) ∧
      (sort_values Prod.snd (icSeries rows)).Sorted (descBy Prod.snd)) ∧
      ((activity_funding rows).filter (fun e => e.2 = v) =
        (activitySeries rows).filter (fun e => e.2 = v) ∧
      (activity_funding rows).Sorted (descBy Prod.snd)) ∧
      ((sort_values (fun e => e.2.1) (pi_funding rows)).filter (fun e => e.2.1 = v) =
        (pi_funding rows).filter (fun e => e.2.1 = v) ∧
      (sort_values (fun e => e.2.1) (pi_funding rows)).Sorted
        (descBy (fun e => e.2.1))) :=
  ⟨⟨filter_sort_values Prod.snd v (icSeries rows),
      List.sorted_insertionSort (descBy Prod.snd) (icSeries rows)⟩,
    ⟨filter_sort_values Prod.snd v (activitySeries rows),
      List.sorted_insertionSort (descBy Prod.snd) (activitySeries rows)⟩,
    ⟨filter_sort_values (fun e => e.2.1) v (pi_funding rows),
      List.sorted_insertionSort (descBy (fun e => e.2.1)) (pi_funding rows)⟩⟩

theorem sum_map_div (l : List ℚ) (c : ℚ) :
    (l.map (fun x => x / c)).sum = l.sum / c := by
  induction l with
  | nil => simp
  | cons x xs ih => simp [ih, add_div]

theorem sum_toMillions {α : Type} (l : List (α × ℚ)) :
    ((toMillions l).map Prod.snd).sum = (l.map Prod.snd).sum / 1000000 := by
  have h : (toMillions l).map Prod.snd = (l.map Prod.snd).map (fun x => x / 1000000) := by
    simp [toMillions, List.map_map]
  rw [h, sum_map_div]

theorem key_mem_of_mem_activitySeries (rows : List Row) (e : String × ℚ)
    (h : e ∈ activitySeries rows) : e.1 ∈ rows.map Row.activity := by
  simp only [activitySeries, groupbySum, List.mem_map] at h
  obtain ⟨k, hk, rfl⟩ := h
  simpa [keysOf, List.mem_insertionSort, List.mem_dedup] using hk

theorem setKey_append (l : List (String × ℚ)) (k : String) (v : ℚ)
    (h : ∀ e ∈ l, e.1 ≠ k) : setKey l k v = l ++ [(k, v)] := by
  have hany : l.any (fun e => e.1 = k) = false := by
    simp only [List.any_eq_false, decide_eq_true_eq]
    exact h
  simp [setKey, hany]

theorem sum_activity_funding (rows : List Row) :
    ((activity_funding rows).map Prod.snd).sum =
      ((activitySeries rows).map Prod.snd).sum :=
  ((List.perm_insertionSort (descBy Prod.snd) (activitySeries rows)).map Prod.snd).sum_eq

/-- C1 counterexample: on eleven Administering ICs of one million
dollars each the top-10 IC view shows a total of 10 million while the
full untruncated IC series sums to 11 million — the view has no Other
bucket, so the claimed invariant fails for it. -/
theorem c1_ic_view_breaks_sum :
    ((funding_by_ic c1rows).map Prod.snd).sum = 10 ∧
      ((icSeries c1rows).map Prod.snd).sum / 1000000 = 11 := by
  have hkeys : keysOf strLe (fun r => r.administeringIC) c1rows =
      ["I01", "I02", "I03", "I04", "I05", "I06", "I07", "I08", "I09", "I10", "I11"] := by
    decide
  have hsum : ∀ k ∈ (["I01", "I02", "I03", "I04", "I05", "I06", "I07", "I08", "I09",
      "I10", "I11"] : List String),
      groupSum (fun r => r.administeringIC) (fun r => r.totalCost) c1rows k = 1000000 := by
    intro k hk
    fin_cases hk <;>
    · show ([(1000000 : ℚ)]).sum = 1000000
      simp
  have hseries : icSeries c1rows =
      (["I01", "I02", "I03", "I04", "I05", "I06", "I07", "I08", "I09", "I10",
        "I11"] : List String).map (fun k => (k, (1000000 : ℚ))) := by
    rw [icSeries, groupbySum, hkeys]
    refine List.map_congr_left (fun k hk => ?_)
    rw [hsum k hk]
  constructor
  · rw [funding_by_ic, hseries]
    norm_num [toMillions, sort_values, List.insertionSort, List.orderedInsert, descBy]
  · rw [hseries]
    norm_num

/-- C1 amended: the sum invariant holds for the one view that emits an
Other bucket — the top-5 activity view, provided no activity group is
literally named `'Other Types'` (the bucket key would otherwise be
overwritten) — and the top-10 Administering-IC view preserves the
series total only when it truncates nothing, i.e. when there are at
most 10 distinct ICs. -/
theorem topn_sum_invariant (rows : List Row)
    (hA : "Other Types" ∉ rows.map Row.activity)
    (hIC : (icSeries rows).length ≤ 10) :
    ((top_5_activities rows).map Prod.snd).sum =
        ((activitySeries rows).map Prod.snd).sum / 1000000 ∧
      ((funding_by_ic rows).map Prod.snd).sum =
        ((icSeries rows).map Prod.snd).sum / 1000000 := by
  constructor
  · have hkeys : ∀ e ∈ (activity_funding rows).take 5, e.1 ≠ "Other Types" := by
      intro e he
      have h1 : e ∈ activity_funding rows := List.mem_of_mem_take he
      have h2 : e ∈ activitySeries rows := by
        simpa [activity_funding, sort_values, List.mem_insertionSort] using h1
      intro hk
      exact hA (hk ▸ key_mem_of_mem_activitySeries rows e h2)
    rw [top_5_activities, setKey_append _ _ _ hkeys, sum_toMillions]
    congr 1
    rw [List.map_append, ← sum_activity_funding rows, List.map_take, List.map_drop]
    simp [List.sum_append]
  · have hlen : (sort_values Prod.snd (icSeries rows)).length ≤ 10 := by
      simpa [sort_values, List.length_insertionSort] using hIC
    rw [funding_by_ic, List.take_of_length_le hlen, sum_toMillions]
    congr 1
    exact ((List.perm_insertionSort (descBy Prod.snd) (icSeries rows)).map Prod.snd).sum_eq

theorem topn_sum_invariant_witness :
    ("Other Types" ∉ c1wrows.map Row.activity ∧ (icSeries c1wrows).length ≤ 10) ∧
      (((top_5_activities c1wrows).map Prod.snd).sum =
          ((activitySeries c1wrows).map Prod.snd).sum / 1000000 ∧
        ((funding_by_ic c1wrows).map Prod.snd).sum =
          ((icSeries c1wrows).map Prod.snd).sum / 1000000) :=
  ⟨⟨by decide, by decide⟩, topn_sum_invariant c1wrows (by decide) (by decide)⟩

/-- C3 counterexample: with a single activity group (1 ≤ 5 = n) the
top-5 activity view still appends a synthetic `'Other Types'` entry —
with value 0 — instead of being exactly the sorted groups. -/
theorem other_bucket_always_appended :
    top_5_activities c3rows = [("R01", 1), ("Other Types", 0)] ∧
      (activitySeries c3rows).length = 1 := by
  have hkeys : keysOf strLe (fun r => r.activity) c3rows = ["R01"] := by decide
  have hsum : groupSum (fun r => r.activity) (fun r => r.totalCost) c3rows "R01" =
      1000000 := by
    show ([(1000000 : ℚ)]).sum = 1000000
    simp
  have hseries : activitySeries c3rows = [("R01", 1000000)] := by
    rw [activitySeries, groupbySum, hkeys]
    simp only [List.map_cons, List.map_nil, hsum]
  constructor
  · rw [top_5_activities, activity_funding, hseries]
    norm_num [toMillions, sort_values, List.insertionSort, List.orderedInsert, descBy,
      setKey, (show ("R01" : String) ≠ "Other Types" by decide)]
  · rw [hseries]
    rfl

/-- C3 amended: when n = 5 is at least the number of distinct activity
groups (and no group is named `'Other Types'`), the view is the sorted
groups with one synthetic `'Other Types'` entry of value 0 appended —
the Other bucket is emitted unconditionally, merely with value 0. -/
theorem topn_other_zero (rows : List Row)
    (hA : "Other Types" ∉ rows.map Row.activity)
    (hlen : (activitySeries rows).length ≤ 5) :
    top_5_activities rows = toMillions (activity_funding rows ++ [("Other Types", 0)]) := by
  have hlen' : (activity_funding rows).length ≤ 5 := by
    simpa [activity_funding, sort_values, List.length_insertionSort] using hlen
  have hkeys : ∀ e ∈ (activity_funding rows).take 5, e.1 ≠ "Other Types" := by
    intro e he
    have h2 : e ∈ activitySeries rows := by
      simpa [activity_funding, sort_values, List.mem_insertionSort] using
        List.mem_of_mem_take he
    intro hk
    exact hA (hk ▸ key_mem_of_mem_activitySeries rows e h2)
  rw [top_5_activities, setKey_append _ _ _ hkeys, List.take_of_length_le hlen',
    List.drop_eq_nil_of_le hlen']
  simp

theorem topn_other_zero_witness :
    ("Other Types" ∉ c1wrows.map Row.activity ∧ (activitySeries c1wrows).length ≤ 5) ∧
      top_5_activities c1wrows =
        toMillions (activity_funding c1wrows ++ [("Other Types", 0)]) :=
  ⟨⟨by decide, by decide⟩, topn_other_zero c1wrows (by decide) (by decide)⟩

theorem foldl_max_sorted (xs : List ℚ) (a : ℚ) (h : (a :: xs).Sorted (· ≤ ·)) :
    xs.foldl max a = (a :: xs).getLast (List.cons_ne_nil a xs) := by
  induction xs generalizing a with
  | nil => simp [List.getLast]
  | cons b xs ih =>
    have hab : a ≤ b := (List.sorted_cons.mp h).1 b (List.mem_cons_self b xs)
    have h' : (b :: xs).Sorted (· ≤ ·) := (List.sorted_cons.mp h).2
    rw [List.foldl_cons, max_eq_right hab, ih b h']
    rfl

theorem seriesMax_eq_getLast (l : List ℚ) (h : l ≠ []) (hs : l.Sorted (· ≤ ·)) :
    seriesMax l = l.getLast h := by
  cases l with
  | nil => exact absurd rfl h
  | cons a xs => exact foldl_max_sorted xs a hs

theorem getLast_map_fst (l : List (ℚ × ℚ)) (h : l ≠ [])
    (hm : l.map Prod.fst ≠ []) :
    (l.map Prod.fst).getLast hm = (l.getLast h).1 := by
  induction l with
  | nil => exact absurd rfl h
  | cons a xs ih =>
    cases xs with
    | nil => rfl
    | cons b ys =>
      have h2 : (b :: ys).map Prod.fst ≠ [] := by simp
      calc ((a :: b :: ys).map Prod.fst).getLast hm
          = ((b :: ys).map Prod.fst).getLast h2 := List.getLast_cons h2
        _ = ((b :: ys).getLast (List.cons_ne_nil b ys)).1 :=
            ih (List.cons_ne_nil b ys) h2
        _ = ((a :: b :: ys).getLast h).1 :=
            congrArg Prod.fst (List.getLast_cons (List.cons_ne_nil b ys)).symm

/-- C2: on a time-ordered series the Forecast Engine signals
`InsufficientHistory` when fewer than 8 periods (two full seasonal
cycles) are observed, and on 8 or more periods returns exactly one
forecast point whose period is the last observed period plus one. -/
theorem forecastEngine_spec (trends : List (ℚ × ℚ)) (hne : trends ≠ [])
    (hsort : (trends.map Prod.fst).Sorted (· ≤ ·)) :
    (trends.length < 8 → forecastEngine trends = .error .insufficientHistory) ∧
      (8 ≤ trends.length →
        forecastEngine trends =
          .ok ⟨(trends.getLast hne).1 + 1,
               holtWintersForecast (trends.map Prod.snd)⟩) := by
  constructor
  · intro h
    rw [forecastEngine, if_pos (by simpa [seasonalPeriods] using h)]
  · intro h
    have hlt : ¬ trends.length < 2 * seasonalPeriods := by
      simp only [seasonalPeriods]
      omega
    rw [forecastEngine, if_neg hlt]
    have hm : trends.map Prod.fst ≠ [] := by simpa using hne
    rw [seriesMax_eq_getLast (trends.map Prod.fst) hm hsort,
      getLast_map_fst trends hne hm]

theorem forecastEngine_spec_witness :
    (c2trends ≠ [] ∧ (c2trends.map Prod.fst).Sorted (· ≤ ·) ∧
        8 ≤ c2trends.length ∧ c2short.length < 8) ∧
      forecastEngine c2trends =
        .ok ⟨2022, holtWintersForecast (c2trends.map Prod.snd)⟩ ∧
      forecastEngine c2short = .error .insufficientHistory := by
  refine ⟨⟨by decide, by decide, by decide, by decide⟩, ?_, ?_⟩
  · have h := (forecastEngine_spec c2trends (by decide) (by decide)).2 (by decide)
    rw [h]
    have hl : (c2trends.getLast (by decide)).1 = 2021 := by decide
    rw [hl]
    norm_num
  · exact (forecastEngine_spec c2short (by decide) (by decide)).1 (by decide)

theorem toNumeric_idem (c : RawCell) : toNumeric (toNumeric c) = toNumeric c := by
  cases c <;> rfl

theorem coerceRow_idem (r : Row) : coerceRow (coerceRow r) = coerceRow r := by
  simp [coerceRow, toNumeric_idem]

/-- C9 counterexample: the startup normalization overwrites the numeric
columns of the loaded dataset in place — on a table containing a
non-numeric total-cost cell the table after the coercion loops differs
from the raw table, so the raw input is not left untouched. -/
theorem normalizer_mutates_table : coerceTable [c9row] ≠ [c9row] := by decide

/-- C9 amended: the startup coercion mutates the loaded dataset in
place (see the counterexample) but is idempotent, so the dataset is
stable from then on; and the view pipeline is pure — `render_content`
derives every view and returns the process-wide table unchanged. -/
theorem views_leave_dataset_unchanged (rows table : List Row) (years : List ℚ)
    (states : List String) :
    coerceTable (coerceTable rows) = coerceTable rows ∧
      (render_content table years states).2 = table := by
  constructor
  · simp only [coerceTable, List.map_map]
    exact List.map_congr_left (fun r _ => by
      simp only [Function.comp_apply, coerceRow_idem])
  · rfl

/-- C10: a record whose total cost is the missing marker is retained
independently of that cost and contributes nothing to any grouped sum;
a group all of whose costs are missing still appears, with sum 0
rather than a missing value. -/
theorem missing_cost_contributes_nothing (key : Row → String) (r : Row)
    (rows : List Row) (k : String) (hr : r.totalCost = RawCell.missing) :
    groupSum key (fun x => x.totalCost) (r :: rows) k =
        groupSum key (fun x => x.totalCost) rows k ∧
      ((∀ x ∈ rows, x.totalCost = RawCell.missing) →
        groupSum key (fun x => x.totalCost) rows k = 0) ∧
      key r ∈ keysOf strLe key (r :: rows) ∧
      ∀ c : RawCell, rowKept { r with totalCost := c } = rowKept r := by
  refine ⟨?_, ?_, ?_, fun c => rfl⟩
  · by_cases hk : key r = k <;>
      simp [groupSum, List.filter_cons, hk, hr, numVal]
  · intro hall
    have he : (rows.filter (fun x => key x = k)).filterMap
        (fun x => numVal (x.totalCost)) = [] := by
      rw [List.filterMap_eq_nil_iff]
      intro x hx
      rw [hall x (List.mem_of_mem_filter hx)]
      rfl
    rw [groupSum, he]
    rfl
  · simp only [keysOf, List.mem_insertionSort, List.mem_dedup, List.mem_map]
    exact ⟨r, List.mem_cons_self r rows, rfl⟩

theorem missing_cost_witness :
    c10row.totalCost = RawCell.missing ∧
      (groupSum (fun x => x.administeringIC) (fun x => x.totalCost)
            (c10row :: [c10row2]) "NINDS" =
          groupSum (fun x => x.administeringIC) (fun x => x.totalCost)
            [c10row2] "NINDS" ∧
        ((∀ x ∈ [c10row2], x.totalCost = RawCell.missing) →
          groupSum (fun x => x.administeringIC) (fun x => x.totalCost)
            [c10row2] "NINDS" = 0) ∧
        c10row.administeringIC ∈
          keysOf strLe (fun x => x.administeringIC) (c10row :: [c10row2]) ∧
        ∀ c : RawCell, rowKept { c10row with totalCost := c } = rowKept c10row) :=
  ⟨rfl, missing_cost_contributes_nothing (fun x => x.administeringIC) c10row
    [c10row2] "NINDS" rfl⟩
